import Mathlib

/-!
Verification of the Polysport order-placement core against its design
specification.  Prices and sizes are Python `Decimal` values in the source;
they are embedded as exact rationals (`ℚ`).  The entry strategy
(`src/strategy/entry_strategy.py`) is a pure price table; the trade executor
(`src/execution/trade_executor.py`) is embedded as explicit state passing over
an in-memory order ledger, with the exchange client, market scanner and market
queue supplied as a read-only environment of oracle functions.
-/

namespace Polysport

/-- Order side. -/
inductive Side where
  | BUY
  | SELL
deriving DecidableEq, Repr

/-- Entry configuration returned by `EntryStrategy.get_entry_prices`
(the dict with keys entry1_cents, entry1_price, entry2_cents, entry2_price,
entry_size_usd). -/
structure EntryConfig where
  entry1_cents : ℕ
  entry1_price : ℚ
  entry2_cents : ℕ
  entry2_price : ℚ
  entry_size_usd : ℚ
deriving DecidableEq, Repr

/-- `EntryStrategy.STRATEGY_TABLE`: (min_price, max_price) → (entry1, entry2),
in the dict's insertion order. -/
def STRATEGY_TABLE : List ((ℚ × ℚ) × (ℕ × ℕ)) :=
  [((61, 63.99), (42, 27)),
   ((64, 66.99), (44, 31)),
   ((67, 69.99), (45, 33)),
   ((70, 74.99), (52, 38)),
   ((75, 79.99), (58, 42)),
   ((80, 100), (68, 55))]

/-- The loop body of `get_entry_prices`: first table row whose inclusive
range contains the price. -/
def lookupBand : List ((ℚ × ℚ) × (ℕ × ℕ)) → ℚ → Option (ℕ × ℕ)
  | [], _ => none
  | ((lo, hi), e) :: rest, p =>
      if lo ≤ p ∧ p ≤ hi then some e else lookupBand rest p

/-- `EntryStrategy.get_entry_prices(strong_team_price_cents)`: scan the
strategy table; on a hit build the entry-config dict with prices = cents/100;
otherwise None. `entry_size_usd` is the instance field. -/
def get_entry_prices (entry_size_usd : ℚ) (strong_team_price_cents : ℚ) :
    Option EntryConfig :=
  (lookupBand STRATEGY_TABLE strong_team_price_cents).map fun e =>
    { entry1_cents := e.1
      entry1_price := (e.1 : ℚ) / 100
      entry2_cents := e.2
      entry2_price := (e.2 : ℚ) / 100
      entry_size_usd := entry_size_usd }

/-- Market snapshot fields read by `calculate_orders`. -/
structure Market where
  strong_price_cents : ℚ
  strong_token_id : String
  strong_name : String
  question : String
  slug : String
deriving DecidableEq, Repr

/-- An order specification as built by `calculate_orders`. -/
structure OrderSpec where
  order_type : String
  token_id : String
  team_name : String
  price : ℚ
  price_cents : ℕ
  amount_usd : ℚ
  entry_number : ℕ
  market_question : String
  market_slug : String
deriving DecidableEq, Repr

/-- `EntryStrategy.calculate_orders(market)`: two limit-buy specs on the
strong team's token at entry1/entry2, or None when no band matches. -/
def calculate_orders (entry_size_usd : ℚ) (market : Market) :
    Option (List OrderSpec) :=
  (get_entry_prices entry_size_usd market.strong_price_cents).map fun cfg =>
    [{ order_type := "limit_buy"
       token_id := market.strong_token_id
       team_name := market.strong_name
       price := cfg.entry1_price
       price_cents := cfg.entry1_cents
       amount_usd := entry_size_usd
       entry_number := 1
       market_question := market.question
       market_slug := market.slug },
     { order_type := "limit_buy"
       token_id := market.strong_token_id
       team_name := market.strong_name
       price := cfg.entry2_price
       price_cents := cfg.entry2_cents
       amount_usd := entry_size_usd
       entry_number := 2
       market_question := market.question
       market_slug := market.slug }]

/-- A filled entry record handed to `calculate_take_profit_orders`
(entry_number and price). -/
structure FilledEntry where
  entry_number : ℕ
  price : ℚ
deriving DecidableEq, Repr

/-- A take-profit leg ({price, size, label}). -/
structure TPOrder where
  price : ℚ
  size : ℚ
  label : String
deriving DecidableEq, Repr

/-- The loop of `calculate_take_profit_orders` that assigns `entry1_price`:
the last filled entry with entry_number 1 wins (Python reassigns on each
match); None when no entry is numbered 1. -/
def entry1PriceOf (filled : List FilledEntry) : Option ℚ :=
  filled.foldl (fun acc e => if e.entry_number = 1 then some e.price else acc) none

/-- `EntryStrategy.calculate_take_profit_orders(filled_entries,
strong_team_start_price_cents, total_position_size)`. -/
def calculate_take_profit_orders (filled_entries : List FilledEntry)
    (strong_team_start_price_cents : ℚ) (total_position_size : ℚ) :
    List TPOrder :=
  let entry_numbers := filled_entries.map (·.entry_number)
  let entry1_price := entry1PriceOf filled_entries
  let strong_start_decimal := strong_team_start_price_cents / 100
  let half_position := total_position_size / 2
  if 1 ∈ entry_numbers ∧ 2 ∉ entry_numbers then
    [{ price := strong_start_decimal, size := half_position,
       label := "TP1 (50% at start price)" },
     { price := 0.96, size := half_position,
       label := "TP2 (50% at 0.96)" }]
  else if 1 ∈ entry_numbers ∧ 2 ∈ entry_numbers then
    [{ price := entry1_price.getD 0, size := half_position,
       label := "TP1 (50% at Entry1 price)" },
     { price := strong_start_decimal, size := half_position,
       label := "TP2 (50% at start price)" }]
  else if 2 ∈ entry_numbers ∧ 1 ∉ entry_numbers then
    [{ price := strong_start_decimal, size := half_position,
       label := "TP1 (50% at start price)" },
     { price := 0.96, size := half_position,
       label := "TP2 (50% at 0.96)" }]
  else []

/-! ## Order ledger

`TradeExecutor` delegates order tracking to `OrderMonitor`
(`src/monitor/order_monitor.py`), whose source is not part of the core under
verification; its operations are modelled from the spec's OrderLedger
contract (§4.2).  The ledger is the list of tracked orders in insertion
order. -/

/-- Lifecycle status of a tracked order (spec §3; REMOVED is realised as
eviction from the ledger list). -/
inductive OrderStatus where
  | OPEN
  | FILLED
  | DISAPPEARED
  | RECREATED
deriving DecidableEq, Repr

/-- A tracked order as recorded by `OrderMonitor.add_order` (spec §3
TrackedOrder). -/
structure TrackedOrder where
  order_id : String
  token_id : String
  market_slug : String
  side : Side
  price : ℚ
  size : ℚ
  entry_number : Option ℕ
  strong_team_price_cents : Option ℚ
  status : OrderStatus
  replaced_by : Option String
deriving DecidableEq, Repr

/-- Modelled from the spec: `OrderMonitor.add_order` (OrderLedger `add`) —
append the new order; a duplicate order_id is rejected (ledger unchanged). -/
def add_order (ledger : List TrackedOrder) (o : TrackedOrder) :
    List TrackedOrder :=
  if ledger.any (fun x => x.order_id = o.order_id) then ledger
  else ledger ++ [o]

/-- Modelled from the spec: `OrderMonitor.update_order_status` (OrderLedger
`setPresence`) — an OPEN order absent from the exchange snapshot becomes
DISAPPEARED; nothing else changes. -/
def update_order_status (ledger : List TrackedOrder) (order_id : String)
    (still_exists : Bool) : List TrackedOrder :=
  ledger.map fun o =>
    if o.order_id = order_id ∧ ¬ still_exists ∧ o.status = .OPEN then
      { o with status := .DISAPPEARED }
    else o

/-- Modelled from the spec: `OrderMonitor.get_disappeared_orders` — the
DISAPPEARED orders, in ledger order. -/
def get_disappeared_orders (ledger : List TrackedOrder) : List TrackedOrder :=
  ledger.filter (fun o => o.status = .DISAPPEARED)

/-- Modelled from the spec: `OrderMonitor.remove_order` — evict the order
from the ledger. -/
def remove_order (ledger : List TrackedOrder) (order_id : String) :
    List TrackedOrder :=
  ledger.filter (fun o => ¬ o.order_id = order_id)

/-- Modelled from the spec: `OrderMonitor.mark_order_filled` — set the
order's status to FILLED. -/
def mark_order_filled (ledger : List TrackedOrder) (order_id : String) :
    List TrackedOrder :=
  ledger.map fun o =>
    if o.order_id = order_id then { o with status := .FILLED } else o

/-- Modelled from the spec: `OrderMonitor.mark_order_recreated` — set the
old order's status to RECREATED and link it to its replacement. -/
def mark_order_recreated (ledger : List TrackedOrder) (old_id new_id : String) :
    List TrackedOrder :=
  ledger.map fun o =>
    if o.order_id = old_id then
      { o with status := .RECREATED, replaced_by := some new_id }
    else o

/-- Modelled from the spec: `OrderMonitor.get_active_orders_by_market`
(OrderLedger `activeByMarket`) — the market's non-terminal orders (OPEN or
DISAPPEARED), in ledger order. -/
def get_active_orders_by_market (ledger : List TrackedOrder) (slug : String) :
    List TrackedOrder :=
  ledger.filter fun o =>
    o.market_slug = slug ∧ (o.status = .OPEN ∨ o.status = .DISAPPEARED)

/-- Distinct elements of a list in order of first occurrence (models
iterating a Python dict built by first-come insertion). -/
def firstOccur : List String → List String
  | [] => []
  | x :: xs => x :: firstOccur (xs.filter (fun y => ¬ y = x))
termination_by l => l.length
decreasing_by
  simp only [List.length_cons]
  exact Nat.lt_succ_of_le (xs.length_filter_le _)

/-- Modelled from the spec: `OrderMonitor.get_markets_with_orders`
(OrderLedger `marketsWithOrders`) — the distinct market slugs appearing in
the ledger. -/
def get_markets_with_orders (ledger : List TrackedOrder) : List String :=
  firstOccur (ledger.map (·.market_slug))

/-! ## Exchange environment

The exchange client, market scanner and market queue are external
collaborators (spec §1, §6); one reconciliation tick sees them as fixed
oracles.  A placement call may raise (`Except.error`), return a response
without an orderID (`ok none`), or succeed with a fresh id (`ok (some id)`).
-/

/-- An open order as listed by `client.get_open_orders` (fields the executor
reads: id, asset_id, side, original_size). -/
structure OpenOrder where
  id : String
  asset_id : String
  side : Side
  original_size : ℚ
deriving DecidableEq, Repr

/-- The external collaborators visible during one tick. -/
structure Env where
  open_orders : List OpenOrder
  balance : String → ℚ
  market_active : String → Bool
  place_limit_buy : String → ℚ → ℚ → Except Unit (Option String)
  place_limit_sell : String → ℚ → ℚ → Except Unit (Option String)

/-- The set of exchange-reported open order ids
(`{order.get('id') for order in open_orders}`). -/
def open_order_ids (env : Env) : List String :=
  env.open_orders.map (·.id)

/-! ## `TradeExecutor.check_and_recreate_orders` -/

/-- The presence-update loop: for every tracked order id, call
`update_order_status(order_id, order_id in open_order_ids)`. -/
def updatePresence (env : Env) (ledger : List TrackedOrder) :
    List TrackedOrder :=
  (ledger.map (·.order_id)).foldl
    (fun l oid => update_order_status l oid ((open_order_ids env).contains oid))
    ledger

/-- `unique_markets = {order['market_slug'] for order in disappeared}` —
the distinct market slugs of the disappeared orders. -/
def unique_markets (disappeared : List TrackedOrder) : List String :=
  firstOccur (disappeared.map (·.market_slug))

/-- The batch market-liveness loop queries `is_market_active` once per
element of `unique_markets`; this is the list of slugs it passes to the
scanner. -/
def market_active_calls (disappeared : List TrackedOrder) : List String :=
  unique_markets disappeared

/-- `ended_markets`: the unique markets the scanner reports inactive. -/
def ended_markets (env : Env) (disappeared : List TrackedOrder) :
    List String :=
  (market_active_calls disappeared).filter (fun s => ¬ env.market_active s)

/-- Mutable state threaded through the recreation loop: the ledger, the
`recreated_count` counter, and the trace of `market_queue.remove_market`
calls. -/
structure RecState where
  ledger : List TrackedOrder
  recreated_count : ℕ
  queue_removed : List String
deriving Repr

/-- The placement call the recreation branch issues: BUY re-submits with
notional `price * size` via `place_limit_buy`; SELL re-submits `size` via
`place_limit_sell`. -/
def placeFor (env : Env) (od : TrackedOrder) : Except Unit (Option String) :=
  match od.side with
  | .BUY => env.place_limit_buy od.token_id od.price (od.price * od.size)
  | .SELL => env.place_limit_sell od.token_id od.price od.size

/-- The replacement order recorded by the recreation branch's `add_order`
call: same token, market, side, price, size and entry_number — and no
`strong_team_price_cents` (the call omits that argument). -/
def recreatedOrder (od : TrackedOrder) (new_id : String) : TrackedOrder :=
  { order_id := new_id
    token_id := od.token_id
    market_slug := od.market_slug
    side := od.side
    price := od.price
    size := od.size
    entry_number := od.entry_number
    strong_team_price_cents := none
    status := .OPEN
    replaced_by := none }

/-- The body of the `for order_data in disappeared` loop (one iteration,
including its try/except: a raising placement call leaves the state
untouched and the loop continues). -/
def processDisappeared (env : Env) (ended : List String) (st : RecState)
    (od : TrackedOrder) : RecState :=
  if od.market_slug ∈ ended then
    { st with ledger := remove_order st.ledger od.order_id
              queue_removed := st.queue_removed ++ [od.market_slug] }
  else if env.balance od.token_id > 1/10 then
    { st with ledger := mark_order_filled st.ledger od.order_id }
  else
    match placeFor env od with
    | .ok (some new_id) =>
        { st with
          ledger := mark_order_recreated
            (add_order st.ledger (recreatedOrder od new_id)) od.order_id new_id
          recreated_count := st.recreated_count + 1 }
    | _ => st

/-- `TradeExecutor.check_and_recreate_orders`: update presence against one
exchange snapshot, collect disappeared orders, batch-check market liveness,
then process each disappeared order independently; the result carries the
final ledger and the returned `recreated_count`. -/
def check_and_recreate_orders (env : Env) (ledger : List TrackedOrder) :
    RecState :=
  let ledger1 := updatePresence env ledger
  let disappeared := get_disappeared_orders ledger1
  if disappeared.isEmpty then ⟨ledger1, 0, []⟩
  else
    let ended := ended_markets env disappeared
    disappeared.foldl (processDisappeared env ended) ⟨ledger1, 0, []⟩

/-! ## `TradeExecutor.check_filled_positions_and_set_tp` -/

/-- Python list slicing `l[:n]` for a possibly negative `n` (a negative
count drops that many elements from the end). -/
def pySlice {α : Type} (l : List α) (n : ℤ) : List α :=
  if 0 ≤ n then l.take n.toNat else l.take (l.length - (-n).toNat)

/-- One token group inside a market: the token, its tracked BUY orders in
ledger order, and the group's `strong_team_price_cents` (taken from the
first BUY order of the token, as the grouping loop does). -/
structure TokenGroup where
  token_id : String
  buy_orders : List TrackedOrder
  strong_team_price_cents : Option ℚ
deriving Repr

/-- The grouping loop `tokens_in_market`: BUY orders of the market grouped
by token_id, groups in order of first occurrence. -/
def tokenGroups (market_orders : List TrackedOrder) : List TokenGroup :=
  let buys := market_orders.filter (fun o => o.side = Side.BUY)
  (firstOccur (buys.map (·.token_id))).map fun t =>
    let tb := buys.filter (fun o => o.token_id = t)
    { token_id := t
      buy_orders := tb
      strong_team_price_cents := tb.head?.bind (·.strong_team_price_cents) }

/-- `open_buy_count`: exchange-listed open BUY orders for the token. -/
def count_open_buys (env : Env) (token_id : String) : ℕ :=
  (env.open_orders.filter
    (fun o => o.asset_id = token_id ∧ o.side = Side.BUY)).length

/-- `existing_sell_size`: sum of `original_size` over the token's open SELL
orders. -/
def existing_sell_size (env : Env) (token_id : String) : ℚ :=
  ((env.open_orders.filter
      (fun o => o.asset_id = token_id ∧ o.side = Side.SELL)).map
    (·.original_size)).sum

/-- The `filled_entries` list built from the first `filled_entries_count`
tracked BUY orders: entry_number defaults to the 1-based position when the
tracked order has none. -/
def filledEntriesOf (toMark : List TrackedOrder) : List FilledEntry :=
  toMark.enum.map fun ie =>
    { entry_number := ie.2.entry_number.getD (ie.1 + 1), price := ie.2.price }

/-- State threaded through take-profit placement: the ledger and the
`tp_placed` counter. -/
structure TPState where
  ledger : List TrackedOrder
  tp_placed : ℕ
deriving Repr

/-- `TradeExecutor.place_take_profit_orders` followed by the caller's
counting: on a response with an orderID the SELL order is recorded in the
ledger and the counter advances; a raising call or a response without an
orderID leaves the state unchanged. -/
def place_take_profit_orders (env : Env) (token_id market_slug : String)
    (st : TPState) (tp : TPOrder) : TPState :=
  match env.place_limit_sell token_id tp.price tp.size with
  | .ok (some oid) =>
      { ledger := add_order st.ledger
          { order_id := oid
            token_id := token_id
            market_slug := market_slug
            side := .SELL
            price := tp.price
            size := tp.size
            entry_number := none
            strong_team_price_cents := none
            status := .OPEN
            replaced_by := none }
        tp_placed := st.tp_placed + 1 }
  | _ => st

/-- The per-token-group body of `check_filled_positions_and_set_tp`:
infer the fill count, apply the balance and dust gates, mark the inferred
prefix FILLED, and — only when a non-zero favored-start-price is recorded —
compute and place the take-profit legs. -/
def processToken (env : Env) (market_slug : String) (st : TPState)
    (grp : TokenGroup) : TPState :=
  let buy_orders := grp.buy_orders
  let open_buy_count := count_open_buys env grp.token_id
  let filled_entries_count : ℤ := (buy_orders.length : ℤ) - open_buy_count
  let position_size := env.balance grp.token_id
  if position_size ≤ 0 then st
  else
    let unsold_position := position_size - existing_sell_size env grp.token_id
    if unsold_position ≤ 1/100 then st
    else
      let toMark := pySlice buy_orders filled_entries_count
      let marked :=
        toMark.foldl (fun l od => mark_order_filled l od.order_id) st.ledger
      let st1 : TPState := { st with ledger := marked }
      match grp.strong_team_price_cents with
      | some c =>
          if c = 0 then st1
          else
            (calculate_take_profit_orders (filledEntriesOf toMark) c
                unsold_position).foldl
              (place_take_profit_orders env grp.token_id market_slug) st1
      | none => st1

/-- The per-market body of the `for market_slug in markets` loop: a market
in the already-profitable set is skipped outright; otherwise every token
group of its active tracked orders is processed. -/
def processMarket (env : Env) (skip : List String) (st : TPState)
    (slug : String) : TPState :=
  if slug ∈ skip then st
  else
    (tokenGroups (get_active_orders_by_market st.ledger slug)).foldl
      (processToken env slug) st

/-- `TradeExecutor.check_filled_positions_and_set_tp`: for every market
with tracked orders, excluding the already-profitable set, process each
token group; the result carries the final ledger and the returned
`tp_placed` count. -/
def check_filled_positions_and_set_tp (env : Env) (skip : List String)
    (ledger : List TrackedOrder) : TPState :=
  (get_markets_with_orders ledger).foldl (processMarket env skip) ⟨ledger, 0⟩

/-! ## Derived tick-level abbreviations and success predicate -/

/-- The disappeared orders one reconciliation tick collects after the
presence update. -/
def tickDisappeared (env : Env) (ledger : List TrackedOrder) :
    List TrackedOrder :=
  get_disappeared_orders (updatePresence env ledger)

/-- The ended-market set one reconciliation tick computes for its
disappeared orders. -/
def tickEnded (env : Env) (ledger : List TrackedOrder) : List String :=
  ended_markets env (tickDisappeared env ledger)

/-- Whether a placement response carries an orderID. -/
def placeOk : Except Unit (Option String) → Bool
  | .ok (some _) => true
  | _ => false

/-- A disappeared order is successfully recreated iff its market is not in
the ended set, its token balance is at or below the 0.1 dust threshold, and
the re-placement call returns an orderID. -/
def recreateSucceeds (env : Env) (ended : List String) (od : TrackedOrder) :
    Bool :=
  decide (od.market_slug ∉ ended) &&
    decide (env.balance od.token_id ≤ 1/10) && placeOk (placeFor env od)

/-! ## Helper lemmas: firstOccur -/

lemma mem_firstOccur (x : String) :
    ∀ l : List String, x ∈ firstOccur l ↔ x ∈ l
  | [] => by rw [firstOccur]
  | y :: ys => by
      rw [firstOccur]
      by_cases hxy : x = y
      · subst hxy; simp
      · simp only [List.mem_cons, hxy, false_or]
        rw [mem_firstOccur x (ys.filter (fun z => ¬ z = y))]
        simp [List.mem_filter, hxy]
  termination_by l => l.length
  decreasing_by
    simp only [List.length_cons]
    exact Nat.lt_succ_of_le (ys.length_filter_le _)

lemma nodup_firstOccur : ∀ l : List String, (firstOccur l).Nodup
  | [] => by rw [firstOccur]; exact List.nodup_nil
  | y :: ys => by
      rw [firstOccur]
      refine List.nodup_cons.mpr ⟨?_, nodup_firstOccur _⟩
      rw [mem_firstOccur]
      simp [List.mem_filter]
  termination_by l => l.length
  decreasing_by
    simp only [List.length_cons]
    exact Nat.lt_succ_of_le (ys.length_filter_le _)

/-! ## Helper lemmas: recreation loop branches -/

lemma mem_tickEnded {env : Env} {ledger : List TrackedOrder}
    {od : TrackedOrder} (hod : od ∈ tickDisappeared env ledger) :
    od.market_slug ∈ tickEnded env ledger ↔
      env.market_active od.market_slug = false := by
  unfold tickEnded ended_markets market_active_calls unique_markets
  rw [List.mem_filter]
  constructor
  · rintro ⟨-, h⟩
    simpa using h
  · intro h
    refine ⟨?_, by simpa using h⟩
    rw [mem_firstOccur]
    exact List.mem_map_of_mem _ hod

lemma processDisappeared_ended (env : Env) (ended : List String)
    (st : RecState) (od : TrackedOrder) (h : od.market_slug ∈ ended) :
    processDisappeared env ended st od =
      { st with ledger := remove_order st.ledger od.order_id
                queue_removed := st.queue_removed ++ [od.market_slug] } := by
  unfold processDisappeared
  rw [if_pos h]

lemma processDisappeared_balance (env : Env) (ended : List String)
    (st : RecState) (od : TrackedOrder) (h1 : od.market_slug ∉ ended)
    (h2 : 1/10 < env.balance od.token_id) :
    processDisappeared env ended st od =
      { st with ledger := mark_order_filled st.ledger od.order_id } := by
  unfold processDisappeared
  rw [if_neg h1, if_pos h2]

lemma processDisappeared_recreate (env : Env) (ended : List String)
    (st : RecState) (od : TrackedOrder) (new_id : String)
    (h1 : od.market_slug ∉ ended) (h2 : env.balance od.token_id ≤ 1/10)
    (h3 : placeFor env od = .ok (some new_id)) :
    processDisappeared env ended st od =
      { st with
        ledger := mark_order_recreated
          (add_order st.ledger (recreatedOrder od new_id)) od.order_id new_id
        recreated_count := st.recreated_count + 1 } := by
  unfold processDisappeared
  rw [if_neg h1, if_neg (not_lt.mpr h2), h3]

lemma processDisappeared_fail (env : Env) (ended : List String)
    (st : RecState) (od : TrackedOrder)
    (h1 : od.market_slug ∉ ended) (h2 : env.balance od.token_id ≤ 1/10)
    (h3 : placeFor env od = .error () ∨ placeFor env od = .ok none) :
    processDisappeared env ended st od = st := by
  unfold processDisappeared
  rw [if_neg h1, if_neg (not_lt.mpr h2)]
  rcases h3 with h3 | h3 <;> rw [h3]

lemma processDisappeared_count (env : Env) (ended : List String)
    (st : RecState) (od : TrackedOrder) :
    (processDisappeared env ended st od).recreated_count =
      st.recreated_count +
        (if recreateSucceeds env ended od then 1 else 0) := by
  unfold recreateSucceeds
  by_cases h1 : od.market_slug ∈ ended
  · rw [processDisappeared_ended env ended st od h1]
    simp [h1]
  · by_cases h2 : 1/10 < env.balance od.token_id
    · rw [processDisappeared_balance env ended st od h1 h2]
      rw [decide_eq_false (not_le.mpr h2)]
      simp
    · cases hp : placeFor env od with
      | error e =>
          rw [processDisappeared_fail env ended st od h1 (not_lt.mp h2)
            (Or.inl (by rw [hp]))]
          simp [placeOk, hp]
      | ok o =>
          cases o with
          | none =>
              rw [processDisappeared_fail env ended st od h1 (not_lt.mp h2)
                (Or.inr hp)]
              simp [placeOk, hp]
          | some new_id =>
              rw [processDisappeared_recreate env ended st od new_id h1
                (not_lt.mp h2) hp]
              rw [decide_eq_true (not_lt.mp h2), decide_eq_true h1]
              simp [placeOk, hp]

lemma foldl_processDisappeared_count (env : Env) (ended : List String) :
    ∀ (l : List TrackedOrder) (st : RecState),
      (List.foldl (processDisappeared env ended) st l).recreated_count =
        st.recreated_count + l.countP (recreateSucceeds env ended) := by
  intro l
  induction l with
  | nil => intro st; simp
  | cons od rest ih =>
      intro st
      rw [List.foldl_cons, ih, processDisappeared_count, List.countP_cons]
      by_cases h : recreateSucceeds env ended od
      · simp [h]
        omega
      · simp [h]

/-! ## Helper lemmas: entry ladder -/

lemma lookupBand_table (p : ℚ) :
    lookupBand STRATEGY_TABLE p =
      if 61 ≤ p ∧ p ≤ 63.99 then some (42, 27)
      else if 64 ≤ p ∧ p ≤ 66.99 then some (44, 31)
      else if 67 ≤ p ∧ p ≤ 69.99 then some (45, 33)
      else if 70 ≤ p ∧ p ≤ 74.99 then some (52, 38)
      else if 75 ≤ p ∧ p ≤ 79.99 then some (58, 42)
      else if 80 ≤ p ∧ p ≤ 100 then some (68, 55)
      else none := rfl

lemma get_entry_prices_eq (s p : ℚ) :
    get_entry_prices s p =
      if 61 ≤ p ∧ p ≤ 63.99 then some ⟨42, 42/100, 27, 27/100, s⟩
      else if 64 ≤ p ∧ p ≤ 66.99 then some ⟨44, 44/100, 31, 31/100, s⟩
      else if 67 ≤ p ∧ p ≤ 69.99 then some ⟨45, 45/100, 33, 33/100, s⟩
      else if 70 ≤ p ∧ p ≤ 74.99 then some ⟨52, 52/100, 38, 38/100, s⟩
      else if 75 ≤ p ∧ p ≤ 79.99 then some ⟨58, 58/100, 42, 42/100, s⟩
      else if 80 ≤ p ∧ p ≤ 100 then some ⟨68, 68/100, 55, 55/100, s⟩
      else none := by
  rw [get_entry_prices, lookupBand_table]
  split_ifs <;> simp [EntryConfig.mk.injEq]

/-! ## Claim theorems: pricing strategy -/

/-- C2: `get_entry_prices` returns a result iff the favored price lies in
one of the six closed bands [61,63.99], [64,66.99], [67,69.99], [70,74.99],
[75,79.99], [80,100]; within a band it returns exactly the table's
entry1/entry2 cents (42/27, 44/31, 45/33, 52/38, 58/42, 68/55); it returns
none below 61, above 100 and strictly inside any sub-cent boundary gap; in
particular 65 ↦ 44/31, 80 ↦ 68/55, 60 ↦ none, 63.99 ↦ 42/27 and
64 ↦ 44/31. -/
theorem entry_ladder_spec (s p : ℚ) :
    ((get_entry_prices s p).isSome ↔
      (61 ≤ p ∧ p ≤ 63.99) ∨ (64 ≤ p ∧ p ≤ 66.99) ∨ (67 ≤ p ∧ p ≤ 69.99) ∨
      (70 ≤ p ∧ p ≤ 74.99) ∨ (75 ≤ p ∧ p ≤ 79.99) ∨ (80 ≤ p ∧ p ≤ 100)) ∧
    (61 ≤ p ∧ p ≤ 63.99 →
      get_entry_prices s p = some ⟨42, 42/100, 27, 27/100, s⟩) ∧
    (64 ≤ p ∧ p ≤ 66.99 →
      get_entry_prices s p = some ⟨44, 44/100, 31, 31/100, s⟩) ∧
    (67 ≤ p ∧ p ≤ 69.99 →
      get_entry_prices s p = some ⟨45, 45/100, 33, 33/100, s⟩) ∧
    (70 ≤ p ∧ p ≤ 74.99 →
      get_entry_prices s p = some ⟨52, 52/100, 38, 38/100, s⟩) ∧
    (75 ≤ p ∧ p ≤ 79.99 →
      get_entry_prices s p = some ⟨58, 58/100, 42, 42/100, s⟩) ∧
    (80 ≤ p ∧ p ≤ 100 →
      get_entry_prices s p = some ⟨68, 68/100, 55, 55/100, s⟩) ∧
    ((p < 61 ∨ 100 < p ∨ (63.99 < p ∧ p < 64) ∨ (66.99 < p ∧ p < 67) ∨
      (69.99 < p ∧ p < 70) ∨ (74.99 < p ∧ p < 75) ∨ (79.99 < p ∧ p < 80)) →
      get_entry_prices s p = none) ∧
    get_entry_prices s 65 = some ⟨44, 44/100, 31, 31/100, s⟩ ∧
    get_entry_prices s 80 = some ⟨68, 68/100, 55, 55/100, s⟩ ∧
    get_entry_prices s 60 = none ∧
    get_entry_prices s 63.99 = some ⟨42, 42/100, 27, 27/100, s⟩ ∧
    get_entry_prices s 64 = some ⟨44, 44/100, 31, 31/100, s⟩ := by
  refine ⟨?_, ?_, ?_, ?_, ?_, ?_, ?_, ?_, ?_, ?_, ?_, ?_, ?_⟩
  · rw [get_entry_prices_eq]
    split_ifs with h1 h2 h3 h4 h5 h6 <;> simp_all
  · intro h
    rw [get_entry_prices_eq, if_pos h]
  · intro h
    rw [get_entry_prices_eq, if_neg (by rintro ⟨-, h2⟩; linarith [h.1]),
      if_pos h]
  · intro h
    rw [get_entry_prices_eq, if_neg (by rintro ⟨-, h2⟩; linarith [h.1]),
      if_neg (by rintro ⟨-, h2⟩; linarith [h.1]), if_pos h]
  · intro h
    rw [get_entry_prices_eq, if_neg (by rintro ⟨-, h2⟩; linarith [h.1]),
      if_neg (by rintro ⟨-, h2⟩; linarith [h.1]),
      if_neg (by rintro ⟨-, h2⟩; linarith [h.1]), if_pos h]
  · intro h
    rw [get_entry_prices_eq, if_neg (by rintro ⟨-, h2⟩; linarith [h.1]),
      if_neg (by rintro ⟨-, h2⟩; linarith [h.1]),
      if_neg (by rintro ⟨-, h2⟩; linarith [h.1]),
      if_neg (by rintro ⟨-, h2⟩; linarith [h.1]), if_pos h]
  · intro h
    rw [get_entry_prices_eq, if_neg (by rintro ⟨-, h2⟩; linarith [h.1]),
      if_neg (by rintro ⟨-, h2⟩; linarith [h.1]),
      if_neg (by rintro ⟨-, h2⟩; linarith [h.1]),
      if_neg (by rintro ⟨-, h2⟩; linarith [h.1]),
      if_neg (by rintro ⟨-, h2⟩; linarith [h.1]), if_pos h]
  · intro hgap
    rw [get_entry_prices_eq]
    split_ifs with h1 h2 h3 h4 h5 h6 <;>
      [skip; skip; skip; skip; skip; skip; rfl] <;>
      · exfalso
        rcases hgap with h | h | ⟨ha, hb⟩ | ⟨ha, hb⟩ | ⟨ha, hb⟩ | ⟨ha, hb⟩ |
          ⟨ha, hb⟩ <;>
          first
            | linarith [h1.1, h1.2]
            | linarith [h2.1, h2.2]
            | linarith [h3.1, h3.2]
            | linarith [h4.1, h4.2]
            | linarith [h5.1, h5.2]
            | linarith [h6.1, h6.2]
  · rw [get_entry_prices_eq]; norm_num
  · rw [get_entry_prices_eq]; norm_num
  · rw [get_entry_prices_eq]; norm_num
  · rw [get_entry_prices_eq]; norm_num
  · rw [get_entry_prices_eq]; norm_num

/-- C2 witness: the band implications of `entry_ladder_spec` discharged at
the concrete price 62. -/
theorem entry_ladder_spec_witness :
    get_entry_prices 5 62 = some ⟨42, 42/100, 27, 27/100, 5⟩ :=
  (entry_ladder_spec 5 62).2.1 (by norm_num)

/-- C9: when the favored price falls in a band, `calculate_orders` builds
exactly two limit_buy specs on the favored outcome's token at entry1 and
entry2, each sized at the fixed per-entry notional and tagged entry_number
1 and 2; outside all bands it returns none. -/
theorem calculate_orders_spec (s : ℚ) (m : Market) :
    (∀ cfg, get_entry_prices s m.strong_price_cents = some cfg →
      calculate_orders s m = some
        [⟨"limit_buy", m.strong_token_id, m.strong_name, cfg.entry1_price,
          cfg.entry1_cents, s, 1, m.question, m.slug⟩,
         ⟨"limit_buy", m.strong_token_id, m.strong_name, cfg.entry2_price,
          cfg.entry2_cents, s, 2, m.question, m.slug⟩]) ∧
    (get_entry_prices s m.strong_price_cents = none →
      calculate_orders s m = none) := by
  constructor
  · intro cfg hcfg
    simp [calculate_orders, hcfg]
  · intro h
    simp [calculate_orders, h]

/-- C9 witness: `calculate_orders_spec` discharged on a market whose
favored price is 65¢. -/
theorem calculate_orders_spec_witness :
    calculate_orders 5 ⟨65, "tokA", "TeamA", "who wins?", "m-a"⟩ = some
      [⟨"limit_buy", "tokA", "TeamA", 44/100, 44, 5, 1, "who wins?", "m-a"⟩,
       ⟨"limit_buy", "tokA", "TeamA", 31/100, 31, 5, 2, "who wins?", "m-a"⟩] :=
  (calculate_orders_spec 5 ⟨65, "tokA", "TeamA", "who wins?", "m-a"⟩).1
    ⟨44, 44/100, 31, 31/100, 5⟩ (by rw [get_entry_prices_eq]; norm_num)

/-- C4: the take-profit legs by case — only entry 1 filled: favored-start
price and the 0.96 ceiling, half size each; both filled: entry-1 price and
favored-start price; only entry 2 filled: identical to only entry 1; any
non-empty filled set (entries numbered 1 or 2) yields exactly two legs of
half size; the empty set yields no legs. -/
theorem take_profit_cases (fs : List FilledEntry) (start total : ℚ) :
    (1 ∈ fs.map (·.entry_number) ∧ 2 ∉ fs.map (·.entry_number) →
      calculate_take_profit_orders fs start total =
        [⟨start/100, total/2, "TP1 (50% at start price)"⟩,
         ⟨96/100, total/2, "TP2 (50% at 0.96)"⟩]) ∧
    (1 ∈ fs.map (·.entry_number) ∧ 2 ∈ fs.map (·.entry_number) →
      ∀ p, entry1PriceOf fs = some p →
      calculate_take_profit_orders fs start total =
        [⟨p, total/2, "TP1 (50% at Entry1 price)"⟩,
         ⟨start/100, total/2, "TP2 (50% at start price)"⟩]) ∧
    (2 ∈ fs.map (·.entry_number) ∧ 1 ∉ fs.map (·.entry_number) →
      calculate_take_profit_orders fs start total =
        [⟨start/100, total/2, "TP1 (50% at start price)"⟩,
         ⟨96/100, total/2, "TP2 (50% at 0.96)"⟩]) ∧
    (fs ≠ [] → (∀ e ∈ fs, e.entry_number = 1 ∨ e.entry_number = 2) →
      (calculate_take_profit_orders fs start total).map (·.size) =
        [total/2, total/2]) ∧
    (fs = [] → calculate_take_profit_orders fs start total = []) := by
  refine ⟨?_, ?_, ?_, ?_, ?_⟩
  · intro h
    rw [calculate_take_profit_orders, if_pos h]
    norm_num
  · intro h p hp
    rw [calculate_take_profit_orders, if_neg (by rintro ⟨-, h2⟩; exact h2 h.2),
      if_pos h, hp]
    simp
  · intro h
    rw [calculate_take_profit_orders, if_neg (by rintro ⟨h1, -⟩; exact h.2 h1),
      if_neg (by rintro ⟨h1, -⟩; exact h.2 h1), if_pos h]
    norm_num
  · intro hne hnum
    have hmem : 1 ∈ fs.map (·.entry_number) ∨ 2 ∈ fs.map (·.entry_number) := by
      obtain ⟨e, he⟩ := List.exists_mem_of_ne_nil fs hne
      rcases hnum e he with h | h
      · exact Or.inl (List.mem_map.mpr ⟨e, he, h⟩)
      · exact Or.inr (List.mem_map.mpr ⟨e, he, h⟩)
    by_cases h1 : 1 ∈ fs.map (·.entry_number) <;>
      by_cases h2 : 2 ∈ fs.map (·.entry_number)
    · rw [calculate_take_profit_orders, if_neg (by rintro ⟨-, hn⟩; exact hn h2),
        if_pos ⟨h1, h2⟩]
      simp
    · rw [calculate_take_profit_orders, if_pos ⟨h1, h2⟩]
      simp
    · rw [calculate_take_profit_orders, if_neg (by rintro ⟨hn, -⟩; exact h1 hn),
        if_neg (by rintro ⟨hn, -⟩; exact h1 hn), if_pos ⟨h2, h1⟩]
      simp
    · exact absurd hmem (by tauto)
  · intro h
    subst h
    rfl

/-- C4 witness: both-entries case of `take_profit_cases` discharged at
entry prices 0.44/0.31, favored start 65¢, total size 10. -/
theorem take_profit_cases_witness :
    calculate_take_profit_orders [⟨1, 44/100⟩, ⟨2, 31/100⟩] 65 10 =
      [⟨44/100, 5, "TP1 (50% at Entry1 price)"⟩,
       ⟨65/100, 5, "TP2 (50% at start price)"⟩] := by
  have h := (take_profit_cases [⟨1, 44/100⟩, ⟨2, 31/100⟩] 65 10).2.1
    (by simp) (44/100) (by rw [entry1PriceOf]; rfl)
  rw [h]
  norm_num

/-- C5: for every total size and every non-empty filled-entry set (entries
numbered 1 or 2), the two take-profit leg sizes sum exactly to the total:
each leg is exactly half, with no rounding adjustment. -/
theorem take_profit_sizes_sum (fs : List FilledEntry) (start total : ℚ)
    (hne : fs ≠ []) (hnum : ∀ e ∈ fs, e.entry_number = 1 ∨ e.entry_number = 2) :
    ((calculate_take_profit_orders fs start total).map (·.size)).sum = total := by
  have hmem : 1 ∈ fs.map (·.entry_number) ∨ 2 ∈ fs.map (·.entry_number) := by
    obtain ⟨e, he⟩ := List.exists_mem_of_ne_nil fs hne
    rcases hnum e he with h | h
    · exact Or.inl (List.mem_map.mpr ⟨e, he, h⟩)
    · exact Or.inr (List.mem_map.mpr ⟨e, he, h⟩)
  by_cases h1 : 1 ∈ fs.map (·.entry_number) <;>
    by_cases h2 : 2 ∈ fs.map (·.entry_number)
  · rw [calculate_take_profit_orders, if_neg (by rintro ⟨-, hn⟩; exact hn h2),
      if_pos ⟨h1, h2⟩]
    simp
  · rw [calculate_take_profit_orders, if_pos ⟨h1, h2⟩]
    simp
  · rw [calculate_take_profit_orders, if_neg (by rintro ⟨hn, -⟩; exact h1 hn),
      if_neg (by rintro ⟨hn, -⟩; exact h1 hn), if_pos ⟨h2, h1⟩]
    simp
  · exact absurd hmem (by tauto)

/-- C5 witness: `take_profit_sizes_sum` discharged at one filled entry and
total size 10. -/
theorem take_profit_sizes_sum_witness :
    ((calculate_take_profit_orders [⟨1, 44/100⟩] 65 10).map (·.size)).sum
      = 10 :=
  take_profit_sizes_sum [⟨1, 44/100⟩] 65 10 (by simp)
    (by intro e he; simp at he; rw [he]; exact Or.inl rfl)

/-! ## Claim theorems: order reconciliation -/

/-- C1: in `check_and_recreate_orders`, a disappeared order on an inactive
market is evicted from the ledger and its market removed from the queue
(not recreated); otherwise a token balance over 0.1 marks it FILLED (not
recreated); otherwise it is recreated with identical side, price and size
(BUY with notional price×size, SELL with size), the replacement is added to
the ledger, the old order is linked via `mark_order_recreated`, and the
function returns the count of successfully recreated orders. -/
theorem check_and_recreate_spec (env : Env) (ledger : List TrackedOrder) :
    (∀ st od, od ∈ tickDisappeared env ledger →
      env.market_active od.market_slug = false →
      processDisappeared env (tickEnded env ledger) st od =
        { st with ledger := remove_order st.ledger od.order_id
                  queue_removed := st.queue_removed ++ [od.market_slug] }) ∧
    (∀ st od, od ∈ tickDisappeared env ledger →
      env.market_active od.market_slug = true →
      1/10 < env.balance od.token_id →
      processDisappeared env (tickEnded env ledger) st od =
        { st with ledger := mark_order_filled st.ledger od.order_id }) ∧
    (∀ st od new_id, od ∈ tickDisappeared env ledger →
      env.market_active od.market_slug = true →
      env.balance od.token_id ≤ 1/10 →
      placeFor env od = .ok (some new_id) →
      processDisappeared env (tickEnded env ledger) st od =
        { st with
          ledger := mark_order_recreated
            (add_order st.ledger (recreatedOrder od new_id)) od.order_id
            new_id
          recreated_count := st.recreated_count + 1 }) ∧
    check_and_recreate_orders env ledger =
      List.foldl (processDisappeared env (tickEnded env ledger))
        ⟨updatePresence env ledger, 0, []⟩ (tickDisappeared env ledger) ∧
    (check_and_recreate_orders env ledger).recreated_count =
      (tickDisappeared env ledger).countP
        (recreateSucceeds env (tickEnded env ledger)) := by
  have hmain : check_and_recreate_orders env ledger =
      List.foldl (processDisappeared env (tickEnded env ledger))
        ⟨updatePresence env ledger, 0, []⟩ (tickDisappeared env ledger) := by
    simp only [check_and_recreate_orders, tickEnded, tickDisappeared]
    by_cases h : (get_disappeared_orders (updatePresence env ledger)).isEmpty
    · rw [if_pos h, List.isEmpty_iff.mp h]
      rfl
    · rw [if_neg h]
  refine ⟨?_, ?_, ?_, hmain, ?_⟩
  · intro st od hod hact
    exact processDisappeared_ended env _ st od ((mem_tickEnded hod).mpr hact)
  · intro st od hod hact h2
    refine processDisappeared_balance env _ st od ?_ h2
    intro hmem
    rw [mem_tickEnded hod] at hmem
    rw [hact] at hmem
    exact Bool.noConfusion hmem
  · intro st od new_id hod hact h2 h3
    refine processDisappeared_recreate env _ st od new_id ?_ h2 h3
    intro hmem
    rw [mem_tickEnded hod] at hmem
    rw [hact] at hmem
    exact Bool.noConfusion hmem
  · rw [hmain, foldl_processDisappeared_count]
    simp

/-- A tick environment for the witnesses: no open orders on the exchange,
zero balances, every market active, placements succeed with fresh ids. -/
def wEnv : Env :=
  { open_orders := []
    balance := fun _ => 0
    market_active := fun _ => true
    place_limit_buy := fun _ _ _ => .ok (some "n1")
    place_limit_sell := fun _ _ _ => .ok (some "n2") }

/-- A tracked BUY entry order used by the witnesses. -/
def wOrder : TrackedOrder :=
  ⟨"o1", "t1", "m1", .BUY, 1/2, 10, some 1, some 65, .OPEN, none⟩

/-- `wOrder` after the presence update classifies it DISAPPEARED. -/
def wOrderD : TrackedOrder :=
  ⟨"o1", "t1", "m1", .BUY, 1/2, 10, some 1, some 65, .DISAPPEARED, none⟩

/-- C1 witness: the recreate branch of `check_and_recreate_spec` discharged
on a one-order ledger whose order disappeared with zero balance on an
active market. -/
theorem check_and_recreate_spec_witness :
    processDisappeared wEnv (tickEnded wEnv [wOrder]) ⟨[wOrderD], 0, []⟩
        wOrderD =
      { ledger := mark_order_recreated
          (add_order [wOrderD] (recreatedOrder wOrderD "n1")) "o1" "n1"
        recreated_count := 1
        queue_removed := [] } :=
  (check_and_recreate_spec wEnv [wOrder]).2.2.1 ⟨[wOrderD], 0, []⟩ wOrderD
    "n1" (by simp [tickDisappeared, get_disappeared_orders, updatePresence,
      wEnv, wOrder, wOrderD, update_order_status, open_order_ids])
    rfl (by norm_num [wEnv]) rfl

/-- C6: within one invocation of `check_and_recreate_orders` the batch
liveness check queries `is_market_active` on a duplicate-free list of slugs
covering exactly the distinct markets of the disappeared orders, so the
number of calls equals the number of distinct markets (never once per
disappeared order). -/
theorem market_liveness_batched (env : Env) (ledger : List TrackedOrder) :
    (market_active_calls (tickDisappeared env ledger)).Nodup ∧
    (market_active_calls (tickDisappeared env ledger)).toFinset =
      ((tickDisappeared env ledger).map (·.market_slug)).toFinset ∧
    (market_active_calls (tickDisappeared env ledger)).length =
      ((tickDisappeared env ledger).map (·.market_slug)).toFinset.card := by
  have hset : (market_active_calls (tickDisappeared env ledger)).toFinset =
      ((tickDisappeared env ledger).map (·.market_slug)).toFinset := by
    ext s
    simp [market_active_calls, unique_markets, List.mem_toFinset,
      mem_firstOccur]
  refine ⟨nodup_firstOccur _, hset, ?_⟩
  rw [← hset]
  exact (List.toFinset_card_of_nodup (nodup_firstOccur _)).symm

/-- C7: a per-order failure in the recreation loop (a raising placement
call or a response without an orderID) leaves the state of that iteration
unchanged, never aborts the remaining disappeared orders, and the final
count still reports the successfully recreated orders. -/
theorem recreate_failure_isolated (env : Env) (ended : List String)
    (od : TrackedOrder)
    (h1 : od.market_slug ∉ ended)
    (h2 : env.balance od.token_id ≤ 1/10)
    (h3 : placeFor env od = .error () ∨ placeFor env od = .ok none) :
    (∀ st, processDisappeared env ended st od = st) ∧
    (∀ st l₁ l₂,
      List.foldl (processDisappeared env ended) st (l₁ ++ od :: l₂) =
        List.foldl (processDisappeared env ended) st (l₁ ++ l₂)) ∧
    (∀ st l₁ l₂,
      (List.foldl (processDisappeared env ended) st
          (l₁ ++ od :: l₂)).recreated_count =
        st.recreated_count +
          (l₁ ++ l₂).countP (recreateSucceeds env ended)) := by
  have hstep : ∀ st, processDisappeared env ended st od = st :=
    fun st => processDisappeared_fail env ended st od h1 h2 h3
  have hskip : ∀ st l₁ l₂,
      List.foldl (processDisappeared env ended) st (l₁ ++ od :: l₂) =
        List.foldl (processDisappeared env ended) st (l₁ ++ l₂) := by
    intro st l₁ l₂
    rw [List.foldl_append, List.foldl_cons, hstep, ← List.foldl_append]
  refine ⟨hstep, hskip, ?_⟩
  intro st l₁ l₂
  rw [hskip, foldl_processDisappeared_count]

/-- A tick environment whose placement calls return no orderID. -/
def wFailEnv : Env :=
  { open_orders := []
    balance := fun _ => 0
    market_active := fun _ => true
    place_limit_buy := fun _ _ _ => .ok none
    place_limit_sell := fun _ _ _ => .ok none }

/-- C7 witness: `recreate_failure_isolated` discharged on a placement that
returns no orderID; the failing iteration leaves the state unchanged. -/
theorem recreate_failure_isolated_witness :
    processDisappeared wFailEnv [] ⟨[wOrderD], 0, []⟩ wOrderD =
      ⟨[wOrderD], 0, []⟩ :=
  (recreate_failure_isolated wFailEnv [] wOrderD (by simp)
    (by norm_num [wFailEnv]) (Or.inr rfl)).1 ⟨[wOrderD], 0, []⟩

/-! ## Helper lemmas: fill inference and take-profit placement -/

lemma foldl_mark_filled (toMark : List TrackedOrder) :
    ∀ l : List TrackedOrder,
      toMark.foldl (fun acc od => mark_order_filled acc od.order_id) l =
        l.map (fun o =>
          if o.order_id ∈ toMark.map (·.order_id)
          then { o with status := OrderStatus.FILLED } else o) := by
  induction toMark with
  | nil =>
      intro l
      simp
  | cons od rest ih =>
      intro l
      rw [List.foldl_cons, ih, mark_order_filled, List.map_map]
      refine List.map_congr_left ?_
      intro o _
      by_cases h : o.order_id = od.order_id
      · by_cases h' : o.order_id ∈ rest.map (·.order_id) <;>
          simp [Function.comp, h, h']
      · by_cases h' : o.order_id ∈ rest.map (·.order_id) <;>
          simp [Function.comp, h, h']

lemma place_tp_ledger (env : Env) (token slug : String) (st : TPState)
    (tp : TPOrder) :
    ∃ t0, (place_take_profit_orders env token slug st tp).ledger =
        st.ledger ++ t0 ∧ ∀ o ∈ t0, o.side = Side.SELL := by
  unfold place_take_profit_orders
  cases h : env.place_limit_sell token tp.price tp.size with
  | error e => exact ⟨[], by simp, by simp⟩
  | ok o =>
      cases o with
      | none => exact ⟨[], by simp, by simp⟩
      | some oid =>
          unfold add_order
          by_cases hd : st.ledger.any (fun x => x.order_id = oid)
          · exact ⟨[], by simp [hd], by simp⟩
          · refine ⟨[⟨oid, token, slug, .SELL, tp.price, tp.size, none,
              none, .OPEN, none⟩], by simp [hd], ?_⟩
            intro o ho
            rw [List.mem_singleton] at ho
            rw [ho]

lemma tp_fold_appends (env : Env) (token slug : String) :
    ∀ (specs : List TPOrder) (st : TPState),
      ∃ tail, (specs.foldl (place_take_profit_orders env token slug)
          st).ledger = st.ledger ++ tail ∧ ∀ o ∈ tail, o.side = Side.SELL := by
  intro specs
  induction specs with
  | nil =>
      intro st
      exact ⟨[], by simp, by simp⟩
  | cons tp rest ih =>
      intro st
      obtain ⟨t0, h0, hs0⟩ := place_tp_ledger env token slug st tp
      obtain ⟨tail, hL, hS⟩ := ih (place_take_profit_orders env token slug st tp)
      rw [List.foldl_cons]
      refine ⟨t0 ++ tail, ?_, ?_⟩
      · rw [hL, h0, List.append_assoc]
      · intro o ho
        rcases List.mem_append.mp ho with h | h
        · exact hs0 o h
        · exact hS o h

/-- C3: in `check_filled_positions_and_set_tp`, a token group's inferred
fill count is the number of tracked BUY orders minus the number the
exchange still lists open, and exactly that prefix of the tracked BUY
orders (in ledger insertion order) is marked FILLED; everything appended
beyond the original ledger is a SELL take-profit order. -/
theorem fill_inference_spec (env : Env) (slug : String) (st : TPState)
    (grp : TokenGroup)
    (hpos : 0 < env.balance grp.token_id)
    (hunsold : 1/100 <
      env.balance grp.token_id - existing_sell_size env grp.token_id) :
    (∀ fc : ℕ,
      (grp.buy_orders.length : ℤ) - count_open_buys env grp.token_id = fc →
      pySlice grp.buy_orders
          ((grp.buy_orders.length : ℤ) - count_open_buys env grp.token_id) =
        grp.buy_orders.take fc) ∧
    (processToken env slug st grp).ledger.take st.ledger.length =
      st.ledger.map (fun o =>
        if o.order_id ∈ (pySlice grp.buy_orders
            ((grp.buy_orders.length : ℤ) -
              count_open_buys env grp.token_id)).map (·.order_id)
        then { o with status := OrderStatus.FILLED } else o) ∧
    (∀ o ∈ (processToken env slug st grp).ledger.drop st.ledger.length,
      o.side = Side.SELL) := by
  have hled : ∃ tail, (processToken env slug st grp).ledger =
      st.ledger.map (fun o =>
        if o.order_id ∈ (pySlice grp.buy_orders
            ((grp.buy_orders.length : ℤ) -
              count_open_buys env grp.token_id)).map (·.order_id)
        then { o with status := OrderStatus.FILLED } else o) ++ tail ∧
      ∀ o ∈ tail, o.side = Side.SELL := by
    simp only [processToken]
    rw [if_neg (not_le.mpr hpos), if_neg (not_le.mpr hunsold)]
    cases hst : grp.strong_team_price_cents with
    | none =>
        dsimp only
        refine ⟨[], ?_, by simp⟩
        rw [List.append_nil, foldl_mark_filled]
    | some c =>
        dsimp only
        by_cases hc : c = 0
        · rw [if_pos hc]
          refine ⟨[], ?_, by simp⟩
          rw [List.append_nil]
          dsimp only
          rw [foldl_mark_filled]
        · rw [if_neg hc]
          obtain ⟨tail, hL, hS⟩ := tp_fold_appends env grp.token_id slug
            (calculate_take_profit_orders
              (filledEntriesOf (pySlice grp.buy_orders
                ((grp.buy_orders.length : ℤ) -
                  count_open_buys env grp.token_id))) c
              (env.balance grp.token_id - existing_sell_size env grp.token_id))
            ⟨(pySlice grp.buy_orders
                ((grp.buy_orders.length : ℤ) -
                  count_open_buys env grp.token_id)).foldl
              (fun l od => mark_order_filled l od.order_id) st.ledger,
              st.tp_placed⟩
          refine ⟨tail, ?_, hS⟩
          rw [hL]
          dsimp only
          rw [foldl_mark_filled]
  obtain ⟨tail, hL, hS⟩ := hled
  refine ⟨?_, ?_, ?_⟩
  · intro fc h
    rw [h]
    unfold pySlice
    rw [if_pos (Int.natCast_nonneg fc)]
    rw [Int.toNat_natCast]
  · rw [hL]
    exact List.take_left' (by rw [List.length_map])
  · intro o ho
    rw [hL, List.drop_left' (by rw [List.length_map])] at ho
    exact hS o ho

/-- First tracked BUY entry of the C3 witness group. -/
def wBuy1 : TrackedOrder :=
  ⟨"b1", "tk", "mA", .BUY, 44/100, 11, some 1, some 65, .OPEN, none⟩

/-- Second tracked BUY entry of the C3 witness group; still open on the
exchange. -/
def wBuy2 : TrackedOrder :=
  ⟨"b2", "tk", "mA", .BUY, 31/100, 16, some 2, some 65, .OPEN, none⟩

/-- A tick environment for the C3 witness: one of the two tracked BUY
orders is still listed open, the token balance is 11, no SELLs yet. -/
def wTPEnv : Env :=
  { open_orders := [⟨"b2", "tk", .BUY, 16⟩]
    balance := fun _ => 11
    market_active := fun _ => true
    place_limit_buy := fun _ _ _ => .ok none
    place_limit_sell := fun _ _ _ => .ok (some "s1") }

/-- The token group of the C3 witness: two tracked BUY orders. -/
def wGrp : TokenGroup := ⟨"tk", [wBuy1, wBuy2], some 65⟩

/-- C3 witness: `fill_inference_spec` discharged with 2 tracked BUY orders
and 1 reported open, so the inferred fill count is 1 and exactly the first
tracked order is marked FILLED. -/
theorem fill_inference_spec_witness :
    (processToken wTPEnv "mA" ⟨[wBuy1, wBuy2], 0⟩ wGrp).ledger.take
        (TPState.mk [wBuy1, wBuy2] 0).ledger.length =
      (TPState.mk [wBuy1, wBuy2] 0).ledger.map (fun o =>
        if o.order_id ∈ (pySlice wGrp.buy_orders
            ((wGrp.buy_orders.length : ℤ) -
              count_open_buys wTPEnv wGrp.token_id)).map (·.order_id)
        then { o with status := OrderStatus.FILLED } else o) :=
  (fill_inference_spec wTPEnv "mA" ⟨[wBuy1, wBuy2], 0⟩ wGrp
    (by norm_num [wTPEnv])
    (by simp [wTPEnv, wGrp, existing_sell_size, List.filter_cons]
        norm_num)).2.1

/-- C8: a token group with balance at most 0, or with unsold position
(balance minus open SELL size) at or below the 0.01 dust threshold, is
skipped entirely (state unchanged: nothing marked FILLED, no take-profit
placed); a market in the skip set is likewise left untouched. -/
theorem dust_skip_spec (env : Env) (slug : String) (st : TPState)
    (grp : TokenGroup) :
    (env.balance grp.token_id ≤ 0 → processToken env slug st grp = st) ∧
    (env.balance grp.token_id - existing_sell_size env grp.token_id ≤ 1/100 →
      processToken env slug st grp = st) ∧
    (∀ skip st' slug', slug' ∈ skip → processMarket env skip st' slug' = st') := by
  refine ⟨?_, ?_, ?_⟩
  · intro h
    simp only [processToken]
    rw [if_pos h]
  · intro h
    simp only [processToken]
    by_cases h0 : env.balance grp.token_id ≤ 0
    · rw [if_pos h0]
    · rw [if_neg h0, if_pos h]
  · intro skip st' slug' hmem
    simp only [processMarket]
    rw [if_pos hmem]

/-- C8 witness: `dust_skip_spec` discharged on a zero-balance token group;
the state is unchanged. -/
theorem dust_skip_spec_witness :
    processToken wEnv "mA" ⟨[], 0⟩ wGrp = ⟨[], 0⟩ :=
  (dust_skip_spec wEnv "mA" ⟨[], 0⟩ wGrp).1 (by norm_num [wEnv])

/-- C10: the ledger entry added for a recreated order carries no
favored-start-price even when the original did (`add_order` is invoked
without `strong_team_price_cents`), so a token group headed by the
replacement records none, and a group with no recorded favored-start-price
gets no take-profit legs placed. -/
theorem recreated_order_drops_start_price (env : Env) (ended : List String)
    (st : RecState) (od : TrackedOrder) (new_id : String) (c : ℚ)
    (hstpc : od.strong_team_price_cents = some c)
    (hside : od.side = Side.BUY)
    (h1 : od.market_slug ∉ ended)
    (h2 : env.balance od.token_id ≤ 1/10)
    (h3 : placeFor env od = .ok (some new_id)) :
    (recreatedOrder od new_id).strong_team_price_cents = none ∧
    processDisappeared env ended st od =
      { st with
        ledger := mark_order_recreated
          (add_order st.ledger (recreatedOrder od new_id)) od.order_id new_id
        recreated_count := st.recreated_count + 1 } ∧
    tokenGroups [recreatedOrder od new_id] =
      [⟨od.token_id, [recreatedOrder od new_id], none⟩] ∧
    (∀ env' slug' st' grp, grp.strong_team_price_cents = none →
      (processToken env' slug' st' grp).tp_placed = st'.tp_placed) := by
  refine ⟨rfl, processDisappeared_recreate env ended st od new_id h1 h2 h3,
    ?_, ?_⟩
  · simp [tokenGroups, recreatedOrder, firstOccur, hside]
  · intro env' slug' st' grp hg
    simp only [processToken]
    rw [hg]
    split_ifs <;> rfl

/-- C10 witness: `recreated_order_drops_start_price` discharged on a
disappeared BUY order that carried a favored-start-price of 65¢. -/
theorem recreated_order_drops_start_price_witness :
    (recreatedOrder wOrderD "n1").strong_team_price_cents = none :=
  (recreated_order_drops_start_price wEnv [] ⟨[wOrderD], 0, []⟩ wOrderD "n1"
    65 rfl rfl (by simp) (by norm_num [wEnv]) rfl).1

end Polysport
